import Mathlib

/-!
# CreativeStudioServer — verification of the composition/render/queue core

Shallow embedding of the algorithmic core of the `creative-studio-server`
Go repository: the job queue retry/dead-letter logic (`pkg/queue`), the
smart compositor (clip scoring, greedy selection, timeline assembly in
`pkg/video_engine/smart_compositor.go`), the render-argument compiler and
the FFmpeg progress parser (`controllers/video_controller.go` /
`pkg/video_engine/ffmpeg_processor.go`).

Conventions of the embedding:
* Go `float64` values are modelled as `ℚ` (the code only adds, subtracts,
  multiplies, divides and compares them; `ℚ` is exact on every input used
  here).  Where Go would produce `NaN`/`Inf` (division by zero) Lean's
  `ℚ` convention `x / 0 = 0` is noted at the definition.
* Go `int` is modelled as `ℤ`, Go `uint` as `ℕ`.
* Fallible Go functions returning `(T, error)` are modelled as
  `Except String T`.
* Go's unstable `sort.Slice` and randomized `map` iteration order are
  modelled relationally / by explicit order parameters, since the Go
  language specification leaves the concrete order unspecified.
-/

namespace CreativeStudio

section

/- Batteries marks the `Rat` arithmetic operations `@[irreducible]`;
re-enable definitional unfolding so that `rfl`/`decide` can evaluate the
embedded functions on concrete inputs. -/
attribute [local semireducible] Rat.add Rat.sub Rat.mul Rat.inv Rat.ofScientific

/-! ## Job queue (`pkg/queue`, embedded from the source of `Task`,
`CreateTask`, `worker` and `PublishTask`) -/

/-- Go `queue.Task`.  The opaque JSON payload and the creation timestamp
play no role in the retry/priority logic and are omitted. -/
structure Task where
  id : String
  type : String
  priority : ℤ
  retry : ℤ
  maxRetry : ℤ
  deriving Repr, DecidableEq

/-- Go `(r *RabbitMQClient).CreateTask`: fresh task with `Retry: 0` and
`MaxRetry: 3`.  The generated time-based id is taken as a parameter. -/
def CreateTask (taskType : String) (priority : ℤ) (tid : String) : Task :=
  { id := tid, type := taskType, priority := priority, retry := 0, maxRetry := 3 }

/-- The retry decision inside the failure branch of
`(r *RabbitMQClient).worker`: when the handler fails, the task is
re-published with `Retry+1` iff `task.Retry < task.MaxRetry`; otherwise no
copy is re-published and the Nack routes the delivery to the dead-letter
exchange. -/
def workerRetry (task : Task) : Option Task :=
  if task.retry < task.maxRetry then some { task with retry := task.retry + 1 } else none

/-- Job states reachable in the system: tasks are created only by
`CreateTask` (every `Publish*` helper goes through it) and evolve only by
the worker's failure-retry re-publish. -/
inductive ReachableTask : Task → Prop
  | created (taskType : String) (priority : ℤ) (tid : String) :
      ReachableTask (CreateTask taskType priority tid)
  | retried {t t' : Task} : ReachableTask t → workerRetry t = some t' → ReachableTask t'

/-- The priority attached to the AMQP publishing in
`(r *RabbitMQClient).PublishTask`: `priority := uint8(task.Priority)`
(Go's conversion truncates to the low 8 bits, i.e. reduces mod 256),
then `if priority > 10 { priority = 10 }`. -/
def publishPriority (taskPriority : ℤ) : ℕ :=
  let p : ℕ := (taskPriority % 256).toNat
  if p > 10 then 10 else p

/-- **C1.** The worker re-enqueues a failed job (with `retry` incremented
by 1) only when `retry < maxRetry`; `retry ≤ maxRetry` holds in every
reachable job state; and once `retry = maxRetry` a failed job is never
re-published (it is only dead-lettered by the Nack). -/
theorem worker_retry_invariant :
    (∀ t : Task, ReachableTask t → t.retry ≤ t.maxRetry) ∧
    (∀ t t' : Task, workerRetry t = some t' →
      t.retry < t.maxRetry ∧ t'.retry = t.retry + 1 ∧ t'.maxRetry = t.maxRetry) ∧
    (∀ t : Task, t.retry = t.maxRetry → workerRetry t = none) := by
  have hstep : ∀ t t' : Task, workerRetry t = some t' →
      t.retry < t.maxRetry ∧ t'.retry = t.retry + 1 ∧ t'.maxRetry = t.maxRetry := by
    intro t t' h
    unfold workerRetry at h
    by_cases hc : t.retry < t.maxRetry
    · simp [hc] at h
      exact ⟨hc, by rw [← h], by rw [← h]⟩
    · simp [hc] at h
  refine ⟨?_, hstep, ?_⟩
  · intro t ht
    induction ht with
    | created taskType priority tid => simp [CreateTask]
    | retried hreach hstep' ih =>
        obtain ⟨hlt, hr, hm⟩ := hstep _ _ hstep'
        omega
  · intro t ht
    unfold workerRetry
    simp [ht]

/-- Witness for `worker_retry_invariant`: a freshly created task satisfies
the invariant, and a task with `retry = maxRetry` is not re-published. -/
theorem worker_retry_invariant_witness :
    (CreateTask "video_processing" 5 "task_1").retry ≤
      (CreateTask "video_processing" 5 "task_1").maxRetry ∧
    workerRetry { id := "task_2", type := "render_video", priority := 8,
                  retry := 3, maxRetry := 3 } = none :=
  ⟨worker_retry_invariant.1 _ (ReachableTask.created "video_processing" 5 "task_1"),
   worker_retry_invariant.2.2 _ rfl⟩

/-- **C8 (counterexample).** A task priority of `256` is greater than 10,
yet `PublishTask` publishes it with priority `0`, not `10`: the
`uint8` conversion wraps mod 256 before the clamp. -/
theorem publishPriority_wrap_cex :
    (256 : ℤ) > 10 ∧ publishPriority 256 = 0 ∧ publishPriority 256 ≠ 10 := by
  refine ⟨by norm_num, ?_, ?_⟩ <;> decide

/-- **C8 (amended).** The published priority always lies in `[0, 10]`
(it is a `ℕ`, so only the upper bound is stated), and a task priority `p`
is clamped to exactly `10` whenever its low 8 bits — `p mod 256`, which is
what the `uint8` conversion keeps — exceed `10`; in particular every `p`
with `10 < p < 256` publishes as exactly `10`. -/
theorem publishPriority_clamped (p : ℤ) :
    publishPriority p ≤ 10 ∧ (10 < p % 256 → publishPriority p = 10) := by
  constructor
  · unfold publishPriority
    by_cases h : (p % 256).toNat > 10
    · simp [h]
    · simp [h]; omega
  · intro h
    unfold publishPriority
    have h2 : (p % 256).toNat > 10 := by
      have h0 : (0 : ℤ) ≤ p % 256 := Int.emod_nonneg p (by norm_num)
      omega
    simp [h2]

/-- Witness for `publishPriority_clamped`: priority 11 is clamped to 10. -/
theorem publishPriority_clamped_witness :
    publishPriority 11 ≤ 10 ∧ publishPriority 11 = 10 :=
  ⟨(publishPriority_clamped 11).1, (publishPriority_clamped 11).2 (by decide)⟩

/-! ## Smart compositor data model
(`pkg/video_engine/smart_compositor.go`, `models/atomic_clip.go`) -/

/-- Go `models.AtomicClip`, restricted to the fields the compositor
reads.  `compositionScore` models the `Metadata["composition_score"]`
entry that `scoreClips` writes and `SelectClips` reads back. -/
structure AtomicClip where
  id : ℕ
  duration : ℚ
  resolution : String
  frameRate : ℚ
  bitrate : ℤ
  category : String
  mood : String
  style : String
  compositionScore : ℚ
  deriving Repr, DecidableEq

/-- Go `video_engine.CompositionRequirements`. -/
structure CompositionRequirements where
  targetDuration : ℚ
  theme : String
  mood : String
  style : String
  primaryColors : List String
  secondaryColors : List String
  musicTempo : String
  transitionStyle : String
  minClipDuration : ℚ
  maxClipDuration : ℚ
  contentBalance : List (String × ℚ)
  avoidRepetition : Bool
  preferHighQuality : Bool
  deriving Repr, DecidableEq

/-- Go `video_engine.Transition`. -/
structure Transition where
  type : String
  duration : ℚ
  easing : String
  deriving Repr, DecidableEq

/-- Go `video_engine.ClipSegment`. -/
structure ClipSegment where
  clipID : ℕ
  startTime : ℚ
  endTime : ℚ
  duration : ℚ
  score : ℚ
  reason : String
  transitions : List Transition := []
  deriving Repr, DecidableEq

/-- Go `video_engine.CompositionContext` (passed to `Score`, unused by
the smart-selection scorer). -/
structure CompositionContext where
  previousClips : List AtomicClip
  currentPosition : ℚ
  remainingTime : ℚ
  deriving Repr, DecidableEq

/-! ## Smart selection scoring (`SmartSelectionAlgorithm`) -/

/-- Go `(a *SmartSelectionAlgorithm).calculateDurationFitness`.
When `minClipDuration = maxClipDuration` the Go code divides by zero
(IEEE `NaN`/`Inf`); in `ℚ` that division yields `0`.  No theorem below
evaluates the function in that degenerate case. -/
def calculateDurationFitness (duration : ℚ) (requirements : CompositionRequirements) : ℚ :=
  if duration < requirements.minClipDuration ∨ duration > requirements.maxClipDuration then 0
  else
    let ideal := (requirements.minClipDuration + requirements.maxClipDuration) / 2
    let deviation := |duration - ideal|
    let maxDeviation := requirements.maxClipDuration - ideal
    1 - deviation / maxDeviation

/-- Go `(a *SmartSelectionAlgorithm).calculateThemeFitness`. -/
def calculateThemeFitness (clip : AtomicClip) (requirements : CompositionRequirements) : ℚ :=
  (if requirements.theme ≠ "" ∧ clip.category = requirements.theme then 0.5 else 0)
  + (if requirements.mood ≠ "" ∧ clip.mood = requirements.mood then 0.3 else 0)
  + (if requirements.style ≠ "" ∧ clip.style = requirements.style then 0.2 else 0)

/-- Go `(a *SmartSelectionAlgorithm).calculateQualityFitness`. -/
def calculateQualityFitness (clip : AtomicClip) (requirements : CompositionRequirements) : ℚ :=
  (if clip.resolution = "1920x1080" then 0.5
   else if clip.resolution = "1280x720" then 0.3 else 0)
  + (if clip.bitrate ≥ 2000 then 0.3 else if clip.bitrate ≥ 1000 then 0.2 else 0)
  + (if clip.frameRate ≥ 30 then 0.2 else 0)

/-- Go `(a *SmartSelectionAlgorithm).Score`: weighted sum
30% duration fitness + 40% theme fitness + 30% quality fitness
(the `context` argument is not read by the implementation). -/
def Score (clip : AtomicClip) (requirements : CompositionRequirements)
    (context : CompositionContext) : ℚ :=
  calculateDurationFitness clip.duration requirements * 0.3
  + calculateThemeFitness clip requirements * 0.4
  + calculateQualityFitness clip requirements * 0.3

/-! ## Clip scoring and sorting (`(sc *SmartCompositor).scoreClips`)

`scoreClips` scores every clip (storing the score in the clip's metadata)
and then sorts with Go's `sort.Slice` under
`less i j := scoreI > scoreJ`.  `sort.Slice` guarantees only that the
result is a permutation of the input ordered so that no later element is
`less` than an earlier one; it is documented as **not stable**, so the
relative order of equal-score clips is unspecified.  The sort is
therefore embedded as a postcondition relation. -/

/-- The clip list after the scoring loop of `scoreClips`, before the
sort: each clip carries `Metadata["composition_score"] = Score(...)`,
where the context is freshly built as
`{PreviousClips: [], CurrentPosition: 0, RemainingTime: TargetDuration}`. -/
def scoreClipsScored (clips : List AtomicClip)
    (requirements : CompositionRequirements) : List AtomicClip :=
  clips.map fun c =>
    { c with compositionScore :=
        Score c requirements ⟨[], 0, requirements.targetDuration⟩ }

/-- Postcondition of `scoreClips`: the output is some permutation of the
scored clips in which no element is strictly outscored by a later one
(the `sort.Slice` contract for `less i j := scoreI > scoreJ`). -/
def scoreClipsPost (clips : List AtomicClip) (requirements : CompositionRequirements)
    (output : List AtomicClip) : Prop :=
  output.Perm (scoreClipsScored clips requirements) ∧
  output.Pairwise fun a b => ¬ b.compositionScore > a.compositionScore

/-! ## Greedy clip selection (`(a *SmartSelectionAlgorithm).SelectClips`) -/

/-- Go `(a *SmartSelectionAlgorithm).findBestClip`: first clip in catalog
order that is not yet used and meets the minimum duration
(`remainingDuration` is a parameter of the Go function but is not read). -/
def findBestClip (clips : List AtomicClip) (usedClips : List ℕ) (remainingDuration : ℚ)
    (requirements : CompositionRequirements) : Option AtomicClip :=
  match clips with
  | [] => none
  | clip :: rest =>
    if usedClips.contains clip.id then
      findBestClip rest usedClips remainingDuration requirements
    else if clip.duration ≥ requirements.minClipDuration then some clip
    else findBestClip rest usedClips remainingDuration requirements

/-- The local `clipDuration` of the `SelectClips` loop body:
`clipDuration := bestClip.Duration`, trimmed down to the remaining
budget when it exceeds it. -/
def clipDuration (bestClip : AtomicClip) (remainingDuration : ℚ) : ℚ :=
  if bestClip.duration > remainingDuration then remainingDuration else bestClip.duration

/-- The `for remainingDuration > MinClipDuration && len(selected) < len(clips)`
loop of `SelectClips`, with explicit fuel.  Each iteration appends one
segment, so `clips.length + 1` fuel always outlasts the loop. -/
def selectClipsLoop (clips : List AtomicClip) (requirements : CompositionRequirements) :
    ℕ → List ClipSegment → List ℕ → ℚ → List ClipSegment
  | 0, selectedClips, _, _ => selectedClips
  | fuel + 1, selectedClips, usedClips, remainingDuration =>
    if remainingDuration > requirements.minClipDuration ∧
        selectedClips.length < clips.length then
      match findBestClip clips usedClips remainingDuration requirements with
      | none => selectedClips
      | some bestClip =>
        selectClipsLoop clips requirements fuel
          (selectedClips ++ [{ clipID := bestClip.id, startTime := 0,
                               endTime := clipDuration bestClip remainingDuration,
                               duration := clipDuration bestClip remainingDuration,
                               score := bestClip.compositionScore,
                               reason := "Smart selection algorithm" }])
          (bestClip.id :: usedClips)
          (remainingDuration - clipDuration bestClip remainingDuration)
    else selectedClips

/-- Go `(a *SmartSelectionAlgorithm).SelectClips`.  The Go function's
`error` result is always `nil`; the `Except` channel mirrors the
signature. -/
def SelectClips (clips : List AtomicClip) (requirements : CompositionRequirements) :
    Except String (List ClipSegment) :=
  Except.ok (selectClipsLoop clips requirements (clips.length + 1) [] []
    requirements.targetDuration)

/-- Sum of the durations of the selected segments. -/
def totalSegmentDuration (segments : List ClipSegment) : ℚ :=
  (segments.map ClipSegment.duration).sum

/-! ### Lemmas about `findBestClip` and the selection loop -/

theorem clipDuration_le (bestClip : AtomicClip) (remainingDuration : ℚ) :
    clipDuration bestClip remainingDuration ≤ remainingDuration ∨
    clipDuration bestClip remainingDuration = bestClip.duration := by
  unfold clipDuration
  split
  · exact Or.inl le_rfl
  · exact Or.inr rfl

theorem clipDuration_le_remaining (bestClip : AtomicClip) (remainingDuration : ℚ) :
    clipDuration bestClip remainingDuration ≤ remainingDuration := by
  unfold clipDuration
  split
  · exact le_rfl
  · exact le_of_not_lt (by assumption)

theorem findBestClip_spec (clips : List AtomicClip) (usedClips : List ℕ)
    (remainingDuration : ℚ) (requirements : CompositionRequirements)
    (bestClip : AtomicClip)
    (h : findBestClip clips usedClips remainingDuration requirements = some bestClip) :
    bestClip ∈ clips ∧ bestClip.id ∉ usedClips ∧
    requirements.minClipDuration ≤ bestClip.duration := by
  induction clips with
  | nil => simp [findBestClip] at h
  | cons clip rest ih =>
    simp only [findBestClip] at h
    by_cases hused : usedClips.contains clip.id
    · rw [if_pos hused] at h
      obtain ⟨hm, hn, hd⟩ := ih h
      exact ⟨List.mem_cons_of_mem _ hm, hn, hd⟩
    · rw [if_neg hused] at h
      by_cases hdur : clip.duration ≥ requirements.minClipDuration
      · rw [if_pos hdur] at h
        obtain rfl : clip = bestClip := by simpa using h
        refine ⟨List.mem_cons_self _ _, ?_, hdur⟩
        simpa [List.contains, List.elem_iff] using hused
      · rw [if_neg hdur] at h
        obtain ⟨hm, hn, hd⟩ := ih h
        exact ⟨List.mem_cons_of_mem _ hm, hn, hd⟩

theorem findBestClip_none_of_short (clips : List AtomicClip) (usedClips : List ℕ)
    (remainingDuration : ℚ) (requirements : CompositionRequirements)
    (h : ∀ c ∈ clips, c.duration < requirements.minClipDuration) :
    findBestClip clips usedClips remainingDuration requirements = none := by
  induction clips with
  | nil => rfl
  | cons clip rest ih =>
    have hrest : findBestClip rest usedClips remainingDuration requirements = none :=
      ih fun c hc => h c (List.mem_cons_of_mem _ hc)
    have hshort := h clip (List.mem_cons_self _ _)
    simp only [findBestClip]
    by_cases hused : usedClips.contains clip.id
    · rw [if_pos hused]; exact hrest
    · rw [if_neg hused, if_neg (not_le.mpr hshort)]; exact hrest

theorem selectClipsLoop_stop (clips : List AtomicClip)
    (requirements : CompositionRequirements) (fuel : ℕ)
    (selectedClips : List ClipSegment) (usedClips : List ℕ) (remainingDuration : ℚ)
    (h : ¬ remainingDuration > requirements.minClipDuration) :
    selectClipsLoop clips requirements fuel selectedClips usedClips remainingDuration
      = selectedClips := by
  cases fuel with
  | zero => rfl
  | succ fuel =>
    simp only [selectClipsLoop]
    rw [if_neg fun hc => h hc.1]

theorem selectClipsLoop_total_le (clips : List AtomicClip)
    (requirements : CompositionRequirements) :
    ∀ (fuel : ℕ) (selectedClips : List ClipSegment) (usedClips : List ℕ)
      (remainingDuration : ℚ), 0 ≤ remainingDuration →
      totalSegmentDuration
          (selectClipsLoop clips requirements fuel selectedClips usedClips remainingDuration)
        ≤ totalSegmentDuration selectedClips + remainingDuration := by
  intro fuel
  induction fuel with
  | zero =>
    intro selectedClips usedClips remainingDuration hrem
    simp only [selectClipsLoop]
    linarith
  | succ fuel ih =>
    intro selectedClips usedClips remainingDuration hrem
    simp only [selectClipsLoop]
    by_cases hcond : remainingDuration > requirements.minClipDuration ∧
        selectedClips.length < clips.length
    · rw [if_pos hcond]
      cases hbest : findBestClip clips usedClips remainingDuration requirements with
      | none => simp; linarith
      | some bestClip =>
        have hcd := clipDuration_le_remaining bestClip remainingDuration
        have hstep := ih
          (selectedClips ++ [{ clipID := bestClip.id, startTime := 0,
                               endTime := clipDuration bestClip remainingDuration,
                               duration := clipDuration bestClip remainingDuration,
                               score := bestClip.compositionScore,
                               reason := "Smart selection algorithm" }])
          (bestClip.id :: usedClips)
          (remainingDuration - clipDuration bestClip remainingDuration)
          (by linarith)
        have htot : totalSegmentDuration
            (selectedClips ++ [{ clipID := bestClip.id, startTime := 0,
                                 endTime := clipDuration bestClip remainingDuration,
                                 duration := clipDuration bestClip remainingDuration,
                                 score := bestClip.compositionScore,
                                 reason := "Smart selection algorithm" }])
            = totalSegmentDuration selectedClips
              + clipDuration bestClip remainingDuration := by
          simp [totalSegmentDuration]
        rw [htot] at hstep
        calc totalSegmentDuration _ ≤ _ := hstep
          _ ≤ totalSegmentDuration selectedClips + remainingDuration := by linarith
    · rw [if_neg hcond]
      linarith

theorem selectClipsLoop_nodup (clips : List AtomicClip)
    (requirements : CompositionRequirements) :
    ∀ (fuel : ℕ) (selectedClips : List ClipSegment) (usedClips : List ℕ)
      (remainingDuration : ℚ),
      (∀ s ∈ selectedClips, s.clipID ∈ usedClips) →
      (selectedClips.map ClipSegment.clipID).Nodup →
      ((selectClipsLoop clips requirements fuel selectedClips usedClips
          remainingDuration).map ClipSegment.clipID).Nodup := by
  intro fuel
  induction fuel with
  | zero =>
    intro selectedClips usedClips remainingDuration _ hnd
    simpa [selectClipsLoop] using hnd
  | succ fuel ih =>
    intro selectedClips usedClips remainingDuration hsub hnd
    simp only [selectClipsLoop]
    by_cases hcond : remainingDuration > requirements.minClipDuration ∧
        selectedClips.length < clips.length
    · rw [if_pos hcond]
      cases hbest : findBestClip clips usedClips remainingDuration requirements with
      | none => simpa using hnd
      | some bestClip =>
        obtain ⟨-, hnotused, -⟩ :=
          findBestClip_spec clips usedClips remainingDuration requirements bestClip hbest
        apply ih
        · intro s hs
          rcases List.mem_append.mp hs with hold | hnew
          · exact List.mem_cons_of_mem _ (hsub s hold)
          · obtain rfl : s = _ := by simpa using hnew
            exact List.mem_cons_self _ _
        · have hfresh : bestClip.id ∉ selectedClips.map ClipSegment.clipID := by
            intro hmem
            obtain ⟨s, hs, hsid⟩ := List.mem_map.mp hmem
            exact hnotused (hsid ▸ hsub s hs)
          simp [List.nodup_append, hnd, hfresh]
    · rw [if_neg hcond]
      simpa using hnd

/-! ### Claims about the Selection Engine -/

/-- Sample clips and requirements used as concrete instances: the spec
scenario `{target_duration=30, min_clip_duration=5, max_clip_duration=15}`
with three eligible clips of duration 10. -/
def req30 : CompositionRequirements :=
  { targetDuration := 30, theme := "", mood := "", style := "",
    primaryColors := [], secondaryColors := [], musicTempo := "",
    transitionStyle := "", minClipDuration := 5, maxClipDuration := 15,
    contentBalance := [], avoidRepetition := false, preferHighQuality := false }

def clipTen1 : AtomicClip :=
  { id := 1, duration := 10, resolution := "1920x1080", frameRate := 30,
    bitrate := 2000, category := "travel", mood := "happy",
    style := "cinematic", compositionScore := 0 }

def clipTen2 : AtomicClip := { clipTen1 with id := 2 }

def clipTen3 : AtomicClip := { clipTen1 with id := 3 }

/-- A requirements value with a *negative* target duration and positive
minimum clip duration (used to refute C4 as stated). -/
def reqNeg : CompositionRequirements :=
  { req30 with targetDuration := -1, minClipDuration := 1, maxClipDuration := 2 }

/-- A candidate clip shorter than `req30`'s minimum clip duration. -/
def shortClip : AtomicClip := { clipTen1 with duration := 1 }

/-- The segment the loop produces for a clip of duration 10 with budget
to spare. -/
def segTen (cid : ℕ) : ClipSegment :=
  { clipID := cid, startTime := 0, endTime := 10, duration := 10,
    score := 0, reason := "Smart selection algorithm" }

/-- **C4 (counterexample).** With `minClipDuration = 1 > 0` but a negative
`targetDuration = -1`, `SelectClips` selects nothing and the total
selected duration `0` exceeds the requested target: the claim fails for
requirements with a negative target duration. -/
theorem SelectClips_budget_cex :
    0 < reqNeg.minClipDuration ∧
    SelectClips [] reqNeg = Except.ok [] ∧
    ¬ totalSegmentDuration [] ≤ reqNeg.targetDuration := by
  refine ⟨by norm_num [reqNeg, req30], rfl, ?_⟩
  simp only [totalSegmentDuration, List.map_nil, List.sum_nil, reqNeg, req30]
  norm_num

/-- **C4 (amended).** For requirements with `minClipDuration > 0` and a
nonnegative `targetDuration`, the selection returned by `SelectClips`
has total duration at most the target, and the greedy loop stops — i.e.
returns its accumulated selection unchanged — as soon as the remaining
budget is not above the minimum clip duration. -/
theorem SelectClips_budget (clips : List AtomicClip)
    (requirements : CompositionRequirements)
    (hmin : 0 < requirements.minClipDuration)
    (htd : 0 ≤ requirements.targetDuration) :
    (∀ segments, SelectClips clips requirements = Except.ok segments →
      totalSegmentDuration segments ≤ requirements.targetDuration) ∧
    (∀ (fuel : ℕ) (selectedClips : List ClipSegment) (usedClips : List ℕ)
        (remainingDuration : ℚ),
      ¬ remainingDuration > requirements.minClipDuration →
      selectClipsLoop clips requirements fuel selectedClips usedClips remainingDuration
        = selectedClips) := by
  constructor
  · intro segments hseg
    have hloop := selectClipsLoop_total_le clips requirements (clips.length + 1)
      [] [] requirements.targetDuration htd
    simp only [SelectClips, Except.ok.injEq] at hseg
    rw [← hseg]
    simpa [totalSegmentDuration] using hloop
  · intro fuel selectedClips usedClips remainingDuration h
    exact selectClipsLoop_stop clips requirements fuel selectedClips usedClips
      remainingDuration h

/-- Witness for `SelectClips_budget`: on the spec scenario (target 30,
min 5, max 15, three eligible clips of duration 10) all three clips are
selected and the total duration 30 does not exceed the target. -/
theorem SelectClips_budget_witness :
    SelectClips [clipTen1, clipTen2, clipTen3] req30
      = Except.ok [segTen 1, segTen 2, segTen 3] ∧
    totalSegmentDuration [segTen 1, segTen 2, segTen 3] ≤ req30.targetDuration :=
  ⟨by rfl,
   (SelectClips_budget [clipTen1, clipTen2, clipTen3] req30
      (by norm_num [req30]) (by norm_num [req30])).1
     [segTen 1, segTen 2, segTen 3] (by rfl)⟩

/-- **C5 (counterexample).** `SelectClips` does not return an error on an
empty candidate set, nor when no candidate meets the minimum duration: in
both cases it returns `ok` with an empty selection — the caller gets a
silently empty selection, not a non-nil error. -/
theorem SelectClips_no_error_cex :
    SelectClips [] req30 = Except.ok [] ∧
    SelectClips [shortClip] req30 = Except.ok [] := by
  constructor <;> rfl

/-- **C5 (amended).** `SelectClips` never returns an error: it always
returns `ok`, and on an empty candidate set — or when every candidate is
shorter than the minimum clip duration — the result is the empty
selection with a nil error. -/
theorem SelectClips_never_errors (clips : List AtomicClip)
    (requirements : CompositionRequirements) :
    (∃ segments, SelectClips clips requirements = Except.ok segments) ∧
    (clips = [] → SelectClips clips requirements = Except.ok []) ∧
    ((∀ c ∈ clips, c.duration < requirements.minClipDuration) →
      SelectClips clips requirements = Except.ok []) := by
  refine ⟨⟨_, rfl⟩, ?_, ?_⟩
  · rintro rfl
    simp [SelectClips, selectClipsLoop]
  · intro hshort
    have hnone := findBestClip_none_of_short clips [] requirements.targetDuration
      requirements hshort
    simp only [SelectClips, selectClipsLoop, Except.ok.injEq]
    rw [hnone]
    split <;> rfl

/-- Witness for `SelectClips_never_errors`: on the empty candidate set
and on a single too-short clip, the selection is `ok []`. -/
theorem SelectClips_never_errors_witness :
    SelectClips [] req30 = Except.ok [] ∧
    SelectClips [shortClip] req30 = Except.ok [] :=
  ⟨(SelectClips_never_errors [] req30).2.1 rfl,
   (SelectClips_never_errors [shortClip] req30).2.2 (by
     intro c hc
     simp only [List.mem_singleton] at hc
     subst hc
     norm_num [shortClip, clipTen1, req30])⟩

/-- **C10.** Every segment list returned by `SelectClips` mentions each
clip id at most once: the loop marks each chosen clip as used and
`findBestClip` skips used clips, so no source clip is selected twice
(independently of the avoid-repetition flag, which the code never
reads). -/
theorem SelectClips_nodup_clipIDs (clips : List AtomicClip)
    (requirements : CompositionRequirements) (segments : List ClipSegment)
    (h : SelectClips clips requirements = Except.ok segments) :
    (segments.map ClipSegment.clipID).Nodup := by
  simp only [SelectClips, Except.ok.injEq] at h
  rw [← h]
  exact selectClipsLoop_nodup clips requirements (clips.length + 1) [] []
    requirements.targetDuration (by simp) (by simp)

/-- Witness for `SelectClips_nodup_clipIDs`: the spec-scenario selection
`[1, 2, 3]` has no duplicate clip ids. -/
theorem SelectClips_nodup_clipIDs_witness :
    (([segTen 1, segTen 2, segTen 3]).map ClipSegment.clipID).Nodup :=
  SelectClips_nodup_clipIDs [clipTen1, clipTen2, clipTen3] req30
    [segTen 1, segTen 2, segTen 3] (by rfl)

/-- **C3 (code bug).** `scoreClips` sorts with Go's `sort.Slice`, whose
contract guarantees only a score-descending permutation and is
documented as not stable.  For the catalog `[tieA, tieB]` of two distinct
equal-score clips, the reversed output `[tieB', tieA']` also satisfies
the sort's postcondition, so the code does not guarantee the claimed
catalog-order tie-breaking. -/
theorem scoreClips_tie_reorder_cex :
    clipTen1 ≠ clipTen2 ∧
    Score clipTen1 req30 ⟨[], 0, req30.targetDuration⟩
      = Score clipTen2 req30 ⟨[], 0, req30.targetDuration⟩ ∧
    scoreClipsPost [clipTen1, clipTen2] req30
      (scoreClipsScored [clipTen2, clipTen1] req30) ∧
    scoreClipsScored [clipTen2, clipTen1] req30
      ≠ scoreClipsScored [clipTen1, clipTen2] req30 := by
  refine ⟨by decide, by decide, ⟨?_, by decide⟩, by decide⟩
  simp only [scoreClipsScored, List.map]
  exact List.Perm.swap _ _ _

/-! ## Timeline assembly (`(sc *SmartCompositor).generateTimeline`,
`(sc *SmartCompositor).selectTransition`) -/

/-- The `Properties` payload of a `TimelineEvent` (Go `interface{}`):
either the clip reference map or the chosen transition. -/
inductive EventProperties where
  | clipRef (clipID : ℕ) (startTime endTime : ℚ)
  | transition (t : Transition)
  deriving Repr, DecidableEq

/-- Go `video_engine.TimelineEvent`. -/
structure TimelineEvent where
  type : String
  startTime : ℚ
  duration : ℚ
  properties : EventProperties
  deriving Repr, DecidableEq

/-- The transition-type pool of `selectTransition`. -/
def transitionTypes : List String := ["fade", "dissolve", "slide", "wipe", "cut"]

/-- Go `(sc *SmartCompositor).selectTransition`.  The "dynamic" style
picks `transitionTypes[rand.Intn(5)]`; the unseeded random draw is
passed in as `randIdx` (reduced mod the pool size, as `rand.Intn`
guarantees).  The Go arguments `fromClip`/`toClip` are not read. -/
def selectTransition (requirements : CompositionRequirements) (randIdx : ℕ)
    (fromClip toClip : ClipSegment) : Transition :=
  match requirements.transitionStyle with
  | "fast" => { type := "cut", duration := 0.1, easing := "ease-in-out" }
  | "smooth" => { type := "dissolve", duration := 1.0, easing := "ease-in-out" }
  | "dynamic" =>
      { type := (transitionTypes.getD (randIdx % transitionTypes.length) "dissolve"),
        duration := 0.3, easing := "ease-in-out" }
  | _ => { type := "dissolve", duration := 0.5, easing := "ease-in-out" }

/-- The loop body of `generateTimeline`: `i` is the loop index and
`currentTime` the accumulated absolute start time.  After each clip
event `currentTime` advances by the clip duration, and a transition
event straddling the boundary (`start = currentTime − duration/2`) is
inserted whenever another clip follows. -/
def generateTimelineAux (requirements : CompositionRequirements) (rand : ℕ → ℕ) :
    List ClipSegment → ℕ → ℚ → List TimelineEvent
  | [], _, _ => []
  | clip :: rest, i, currentTime =>
    let clipEvent : TimelineEvent :=
      { type := "clip", startTime := currentTime, duration := clip.duration,
        properties := .clipRef clip.clipID clip.startTime clip.endTime }
    match rest with
    | [] => [clipEvent]
    | next :: _ =>
      let transition := selectTransition requirements (rand i) clip next
      clipEvent ::
        { type := "transition",
          startTime := currentTime + clip.duration - transition.duration / 2,
          duration := transition.duration,
          properties := .transition transition } ::
        generateTimelineAux requirements rand rest (i + 1) (currentTime + clip.duration)

/-- Go `(sc *SmartCompositor).generateTimeline`, started at
`currentTime := 0.0` and loop index 0. -/
def generateTimeline (requirements : CompositionRequirements) (rand : ℕ → ℕ)
    (clips : List ClipSegment) : List TimelineEvent :=
  generateTimelineAux requirements rand clips 0 0

theorem generateTimelineAux_shape (requirements : CompositionRequirements)
    (rand : ℕ → ℕ) :
    ∀ (clips : List ClipSegment) (i : ℕ) (currentTime : ℚ), clips ≠ [] →
      ((generateTimelineAux requirements rand clips i currentTime).filter
          (fun e => e.type == "clip")).length = clips.length ∧
      ((generateTimelineAux requirements rand clips i currentTime).filter
          (fun e => e.type == "transition")).length = clips.length - 1 ∧
      ((generateTimelineAux requirements rand clips i currentTime).head?.map
          TimelineEvent.type) = some "clip" ∧
      ((generateTimelineAux requirements rand clips i currentTime).getLast?.map
          TimelineEvent.type) = some "clip" := by
  intro clips
  induction clips with
  | nil => intro i t h; exact absurd rfl h
  | cons clip rest ih =>
    intro i currentTime _
    cases rest with
    | nil => refine ⟨rfl, rfl, rfl, rfl⟩
    | cons next rest2 =>
      obtain ⟨h1, h2, h3, h4⟩ :=
        ih (i + 1) (currentTime + clip.duration) (by simp)
      have htl : generateTimelineAux requirements rand (next :: rest2) (i + 1)
          (currentTime + clip.duration) ≠ [] := by
        intro hnil
        rw [hnil] at h3
        simp at h3
      have hstep : generateTimelineAux requirements rand (clip :: next :: rest2) i
            currentTime
          = { type := "clip", startTime := currentTime, duration := clip.duration,
              properties := .clipRef clip.clipID clip.startTime clip.endTime } ::
            { type := "transition",
              startTime := currentTime + clip.duration
                - (selectTransition requirements (rand i) clip next).duration / 2,
              duration := (selectTransition requirements (rand i) clip next).duration,
              properties := .transition
                (selectTransition requirements (rand i) clip next) } ::
            generateTimelineAux requirements rand (next :: rest2) (i + 1)
              (currentTime + clip.duration) := rfl
      rw [hstep]
      refine ⟨?_, ?_, rfl, ?_⟩
      · simp only [List.filter_cons]
        norm_num [show ¬ ("transition" : String) = "clip" from by decide, h1]
      · simp only [List.filter_cons]
        norm_num [show ¬ ("clip" : String) = "transition" from by decide, h2]
      · obtain ⟨x, xs, hx⟩ := List.exists_cons_of_ne_nil htl
        rw [hx] at h4 ⊢
        rw [List.getLast?_cons_cons, List.getLast?_cons_cons]
        exact h4

/-- **C6.** For every non-empty list of `N` selected clip segments the
timeline contains exactly `N` events of type `"clip"` and exactly `N−1`
events of type `"transition"`, the first emitted event is a clip and the
last emitted event is a clip — no transition is placed before the first
clip or after the last one. -/
theorem generateTimeline_shape (requirements : CompositionRequirements)
    (rand : ℕ → ℕ) (clips : List ClipSegment) (h : clips ≠ []) :
    ((generateTimeline requirements rand clips).filter
        (fun e => e.type == "clip")).length = clips.length ∧
    ((generateTimeline requirements rand clips).filter
        (fun e => e.type == "transition")).length = clips.length - 1 ∧
    ((generateTimeline requirements rand clips).head?.map TimelineEvent.type)
        = some "clip" ∧
    ((generateTimeline requirements rand clips).getLast?.map TimelineEvent.type)
        = some "clip" :=
  generateTimelineAux_shape requirements rand clips 0 0 h

/-- Witness for `generateTimeline_shape`: two segments yield 2 clip
events, 1 transition event, and clip events at both ends. -/
theorem generateTimeline_shape_witness :
    ((generateTimeline req30 (fun _ => 0) [segTen 1, segTen 2]).filter
        (fun e => e.type == "clip")).length = 2 ∧
    ((generateTimeline req30 (fun _ => 0) [segTen 1, segTen 2]).filter
        (fun e => e.type == "transition")).length = 1 ∧
    ((generateTimeline req30 (fun _ => 0) [segTen 1, segTen 2]).head?.map
        TimelineEvent.type) = some "clip" ∧
    ((generateTimeline req30 (fun _ => 0) [segTen 1, segTen 2]).getLast?.map
        TimelineEvent.type) = some "clip" :=
  generateTimeline_shape req30 (fun _ => 0) [segTen 1, segTen 2] (by simp)

/-! ## Render-argument compilation
(`(fp *FFmpegProcessor).buildRenderArgs` and
`(fp *FFmpegProcessor).buildVideoFilters` — the controller version; the
copy in `ffmpeg_processor.go` is textually identical minus the filter
stage) -/

/-- Go `controllers.VideoFilter`.  The Go `Parameters` field is a
`map[string]interface{}`; `parameters` lists the map's entries in the
order Go's (randomized) `range` happens to present them, each value
already rendered the way `fmt.Sprintf("%v", value)` prints it. -/
structure VideoFilter where
  name : String
  parameters : List (String × String)
  deriving Repr, DecidableEq

/-- Go `controllers.RenderOptions`. -/
structure RenderOptions where
  outputFormat : String
  quality : String
  width : ℤ
  height : ℤ
  frameRate : ℚ
  videoBitrate : ℤ
  audioBitrate : ℤ
  preset : String
  crf : ℤ
  filters : List VideoFilter
  deriving Repr, DecidableEq

/-- Go `fmt.Sprintf("%.2f", x)` on the frame rate: two decimal places,
rounding half away from zero (`%.2f` rounds the underlying binary
float64 to even on exact ties; no theorem below evaluates a tie). -/
def formatFixed2 (q : ℚ) : String :=
  let sign := if q < 0 then "-" else ""
  let cents : ℤ := ⌊|q| * 100 + 1 / 2⌋
  sign ++ toString (cents / 100) ++ "."
    ++ (if cents % 100 < 10 then "0" else "") ++ toString (cents % 100)

/-- Go `(fp *FFmpegProcessor).buildVideoFilters`: each filter is
serialized as `name` or `name=key1=val1:key2=val2` (parameters joined
with `:` in the order the map `range` presents them), and the filters
are joined with `,`. -/
def buildVideoFilters (filters : List VideoFilter) : String :=
  String.intercalate ","
    (filters.map fun filter =>
      if filter.parameters.length > 0 then
        filter.name ++ "="
          ++ String.intercalate ":"
              (filter.parameters.map fun p => p.1 ++ "=" ++ p.2)
      else filter.name)

/-- Go `(fp *FFmpegProcessor).buildRenderArgs`
(`controllers/video_controller.go`): the `nil` options case returns the
fixed default list; otherwise codec, preset, rate control, optional
resolution / frame-rate / bitrate flags, audio settings, and the final
`-vf` filter stage are appended in order. -/
def buildRenderArgs (options : Option RenderOptions) : List String :=
  match options with
  | none => ["-c:v", "libx264", "-preset", "medium", "-crf", "23"]
  | some options =>
    ["-c:v", "libx264"]
    ++ (if options.preset ≠ "" then ["-preset", options.preset]
        else ["-preset", "medium"])
    ++ (if options.crf > 0 then ["-crf", toString options.crf]
        else if options.quality = "low" then ["-crf", "28"]
        else if options.quality = "medium" then ["-crf", "23"]
        else if options.quality = "high" then ["-crf", "18"]
        else if options.quality = "ultra" then ["-crf", "15"]
        else ["-crf", "23"])
    ++ (if options.width > 0 ∧ options.height > 0 then
          ["-s", toString options.width ++ "x" ++ toString options.height]
        else [])
    ++ (if options.frameRate > 0 then ["-r", formatFixed2 options.frameRate] else [])
    ++ (if options.videoBitrate > 0 then
          ["-b:v", toString options.videoBitrate ++ "k"]
        else [])
    ++ ["-c:a", "aac"]
    ++ (if options.audioBitrate > 0 then
          ["-b:a", toString options.audioBitrate ++ "k"]
        else ["-b:a", "128k"])
    ++ (if options.filters.length > 0 then
          (if buildVideoFilters options.filters ≠ "" then
            ["-vf", buildVideoFilters options.filters]
          else [])
        else [])

/-- The rate-control value exactly as the specification words it
(*Modelled from the spec*, for comparison against `buildRenderArgs`):
the explicit CRF when `CRF > 0`, otherwise `low→28`, `medium→23`,
`high→18`, `ultra→15`, anything else `→23`. -/
def specRateControl (options : RenderOptions) : String :=
  if options.crf > 0 then toString options.crf
  else if options.quality = "low" then "28"
  else if options.quality = "medium" then "23"
  else if options.quality = "high" then "18"
  else if options.quality = "ultra" then "15"
  else "23"

/-- **C2.** For every `RenderOptions`, the compiled argument list starts
`-c:v libx264 -preset <p> -crf <v>` where `v` is exactly the
spec's rate-control mapping: the explicit CRF whenever `CRF > 0`
(overriding any quality tier), else 28/23/18/15 for low/medium/high/ultra
and 23 for any other quality string. -/
theorem buildRenderArgs_rateControl (options : RenderOptions) :
    ∃ tail, buildRenderArgs (some options) =
      "-c:v" :: "libx264" :: "-preset" ::
        (if options.preset ≠ "" then options.preset else "medium") ::
        "-crf" :: specRateControl options :: tail := by
  simp only [buildRenderArgs, specRateControl]
  set w := (if options.width > 0 ∧ options.height > 0 then
      ["-s", toString options.width ++ "x" ++ toString options.height]
    else ([] : List String)) with hw
  set r := (if options.frameRate > 0 then
      ["-r", formatFixed2 options.frameRate] else ([] : List String)) with hr
  set b := (if options.videoBitrate > 0 then
      ["-b:v", toString options.videoBitrate ++ "k"] else ([] : List String)) with hb
  set a := (if options.audioBitrate > 0 then
      ["-b:a", toString options.audioBitrate ++ "k"]
    else ["-b:a", "128k"]) with ha
  set f := (if options.filters.length > 0 then
      (if buildVideoFilters options.filters ≠ "" then
        ["-vf", buildVideoFilters options.filters]
      else [])
    else ([] : List String)) with hf
  split_ifs <;> exact ⟨_, rfl⟩

/-! Concrete filters with the same two-entry parameter map presented in
its two possible `range` orders (used to refute plan determinism). -/

def eqFilterA : VideoFilter :=
  { name := "eq", parameters := [("brightness", "0.1"), ("contrast", "1.2")] }

def eqFilterB : VideoFilter :=
  { name := "eq", parameters := [("contrast", "1.2"), ("brightness", "0.1")] }

def renderOptsWith (fs : List VideoFilter) : RenderOptions :=
  { outputFormat := "mp4", quality := "high", width := 0, height := 0,
    frameRate := 0, videoBitrate := 0, audioBitrate := 0, preset := "",
    crf := 0, filters := fs }

/-- **C9 (code bug).** Plan compilation is *not* deterministic:
`buildVideoFilters` serializes a filter's parameter map in Go's `range`
iteration order, which is randomized per run.  `eqFilterA` and
`eqFilterB` are the *same* map (same name, same key/value entries, only
the presentation order differs), yet they serialize differently and the
compiled argument lists differ — two runs of the compiler on the same
`RenderOptions` may produce different argument lists. -/
theorem buildRenderArgs_not_deterministic_cex :
    eqFilterA.name = eqFilterB.name ∧
    eqFilterA.parameters.Perm eqFilterB.parameters ∧
    buildVideoFilters [eqFilterA] ≠ buildVideoFilters [eqFilterB] ∧
    buildRenderArgs (some (renderOptsWith [eqFilterA]))
      ≠ buildRenderArgs (some (renderOptsWith [eqFilterB])) := by
  refine ⟨rfl, ?_, by decide, by decide⟩
  exact List.Perm.swap _ _ _

/-! ## FFmpeg progress parsing
(`(fp *FFmpegProcessor).parseProgress`, `(fp *FFmpegProcessor).parseTime`
in `controllers/video_controller.go`) -/

/-- Go `strings.Split` on a single separator character, over the
character list of the string (structurally recursive so that concrete
inputs evaluate). -/
def splitOnChar (sep : Char) : List Char → List (List Char)
  | [] => [[]]
  | c :: rest =>
    if c = sep then [] :: splitOnChar sep rest
    else
      match splitOnChar sep rest with
      | [] => [[c]]
      | group :: groups => (c :: group) :: groups

/-- Numeric value of a digit string (fold used by the number parsers). -/
def digitsToNat (cs : List Char) : ℕ :=
  cs.foldl (fun n c => n * 10 + (c.toNat - 48)) 0

/-- Go `strconv.Atoi`: an optionally signed non-empty run of decimal
digits (the progress fields never reach the overflow range). -/
def Atoi (s : String) : Option ℤ :=
  match s.data with
  | [] => none
  | '+' :: rest =>
      if rest ≠ [] ∧ rest.all Char.isDigit then some (digitsToNat rest : ℤ) else none
  | '-' :: rest =>
      if rest ≠ [] ∧ rest.all Char.isDigit then some (-(digitsToNat rest : ℤ)) else none
  | cs =>
      if cs.all Char.isDigit then some (digitsToNat cs : ℤ) else none

/-- Value of `intPart.fracPart` as a rational. -/
def decimalVal (intPart fracPart : List Char) : ℚ :=
  (digitsToNat intPart : ℚ) + (digitsToNat fracPart : ℚ) / (10 : ℚ) ^ fracPart.length

/-- The unsigned decimal grammar of `strconv.ParseFloat`:
`ddd`, `ddd.`, `.ddd` or `ddd.ddd` (at least one digit overall). -/
def parseFloatCore (cs : List Char) : Option ℚ :=
  match splitOnChar '.' cs with
  | [intPart] =>
      if intPart ≠ [] ∧ intPart.all Char.isDigit then some (digitsToNat intPart : ℚ)
      else none
  | [intPart, fracPart] =>
      if (intPart ≠ [] ∨ fracPart ≠ []) ∧ intPart.all Char.isDigit
          ∧ fracPart.all Char.isDigit then
        some (decimalVal intPart fracPart)
      else none
  | _ => none

/-- Go `strconv.ParseFloat` on plain decimal input, kept exact in `ℚ`.
The exponent/hex/inf forms — which an FFmpeg progress line never
contains — are not modelled and return `none`. -/
def ParseFloat (s : String) : Option ℚ :=
  match s.data with
  | [] => none
  | '+' :: rest => parseFloatCore rest
  | '-' :: rest => (parseFloatCore rest).map Neg.neg
  | cs => parseFloatCore cs

/-- Go `strings.Fields`, modelled for space-separated input (an FFmpeg
progress line uses only spaces between fields). -/
def Fields (s : String) : List String :=
  ((splitOnChar ' ' s.data).filter (fun part => part ≠ [])).map
    (fun cs => String.mk cs)

/-- Go `(fp *FFmpegProcessor).parseTime`: `HH:MM:SS.ms` to seconds;
any other shape yields 0, and unparsable components count as 0 (Go
ignores the `Atoi`/`ParseFloat` errors). -/
def parseTime (timeStr : String) : ℚ :=
  match splitOnChar ':' timeStr.data with
  | [h, m, s] =>
    let hours : ℤ := (Atoi (String.mk h)).getD 0
    let minutes : ℤ := (Atoi (String.mk m)).getD 0
    let seconds : ℚ := (ParseFloat (String.mk s)).getD 0
    ((hours * 3600 + minutes * 60 : ℤ) : ℚ) + seconds
  | _ => 0

/-- Go `controllers.RenderProgress`; the field defaults are the Go zero
values of `&RenderProgress{}`, so a field that the parser never assigns
("left unset") keeps its zero value. -/
structure RenderProgress where
  frame : ℤ := 0
  fps : ℚ := 0
  bitrate : String := ""
  totalSize : ℤ := 0
  time : String := ""
  speed : ℚ := 0
  progress : ℚ := 0
  deriving Repr, DecidableEq

/-- One iteration of the `for _, part := range parts` loop of
`parseProgress`: the recognized `frame=`/`fps=`/`time=`/`speed=`/`size=`
prefixes update their fields (parse failures are ignored), and
percent-complete is written only when the parsed elapsed time is
positive *and* the total planned duration is positive. -/
def parseProgressStep (totalDuration : ℚ) (acc : RenderProgress)
    (part : String) : RenderProgress :=
  if ("frame=").data.isPrefixOf part.data then
    match Atoi (String.mk (part.data.drop 6)) with
    | some frame => { acc with frame := frame }
    | none => acc
  else if ("fps=").data.isPrefixOf part.data then
    match ParseFloat (String.mk (part.data.drop 4)) with
    | some fps => { acc with fps := fps }
    | none => acc
  else if ("time=").data.isPrefixOf part.data then
    let timeStr := String.mk (part.data.drop 5)
    let duration := parseTime timeStr
    if duration > 0 then
      if totalDuration > 0 then
        { acc with time := timeStr, progress := duration / totalDuration * 100 }
      else { acc with time := timeStr }
    else acc
  else if ("speed=").data.isPrefixOf part.data then
    let speedStr := part.data.drop 6
    let speedStr := if speedStr.getLast? = some 'x' then speedStr.dropLast else speedStr
    match ParseFloat (String.mk speedStr) with
    | some speed => { acc with speed := speed }
    | none => acc
  else if ("size=").data.isPrefixOf part.data then
    { acc with bitrate := String.mk (part.data.drop 5) }
  else acc

/-- Go `(fp *FFmpegProcessor).parseProgress`: split the line into
fields and fold the recognizer over them, starting from the zero-valued
`RenderProgress` literal. -/
def parseProgress (line : String) (totalDuration : ℚ) : RenderProgress :=
  (Fields line).foldl (parseProgressStep totalDuration) {}

theorem parseProgressStep_keeps_progress (totalDuration : ℚ)
    (h : ¬ totalDuration > 0) (acc : RenderProgress) (part : String) :
    (parseProgressStep totalDuration acc part).progress = acc.progress := by
  simp only [parseProgressStep]
  split_ifs
  all_goals
    first
      | rfl
      | (split <;> rfl)

theorem parseProgress_foldl_keeps_progress (totalDuration : ℚ)
    (h : ¬ totalDuration > 0) :
    ∀ (parts : List String) (acc : RenderProgress),
      ((parts.foldl (parseProgressStep totalDuration) acc)).progress
        = acc.progress := by
  intro parts
  induction parts with
  | nil => intro acc; rfl
  | cons part rest ih =>
    intro acc
    simp only [List.foldl_cons]
    rw [ih (parseProgressStep totalDuration acc part)]
    exact parseProgressStep_keeps_progress totalDuration h acc part

/-- **C7.** The scenario line
`frame=120 fps=24.0 time=00:00:05.00 speed=1.0x` with a total planned
duration of 10 s parses to frame 120, fps 24.0, speed 1.0, elapsed time
5 s (`parseTime` of `00:00:05.00`), and percent-complete 50.0; and in
general percent-complete is written only when the total duration is
positive — otherwise it is left at its zero value. -/
theorem parseProgress_scenario :
    parseProgress "frame=120 fps=24.0 time=00:00:05.00 speed=1.0x" 10
      = { frame := 120, fps := 24, bitrate := "", totalSize := 0,
          time := "00:00:05.00", speed := 1, progress := 50 } ∧
    parseTime "00:00:05.00" = 5 ∧
    (∀ (line : String) (totalDuration : ℚ), totalDuration ≤ 0 →
      (parseProgress line totalDuration).progress = 0) ∧
    (∀ (line : String) (totalDuration : ℚ),
      (parseProgress line totalDuration).progress ≠ 0 → 0 < totalDuration) := by
  refine ⟨by decide, by decide, ?_, ?_⟩
  · intro line totalDuration h
    exact parseProgress_foldl_keeps_progress totalDuration (not_lt.mpr h)
      (Fields line) {}
  · intro line totalDuration h
    by_contra htot
    exact h (parseProgress_foldl_keeps_progress totalDuration htot (Fields line) {})

/-- Witness for `parseProgress_scenario`: with a nonpositive total
duration the percent-complete field stays at its zero value, and on the
scenario line the positive total 10 is recovered from the nonzero
percent-complete. -/
theorem parseProgress_scenario_witness :
    (parseProgress "time=00:00:05.00" 0).progress = 0 ∧
    (0 : ℚ) < 10 :=
  ⟨parseProgress_scenario.2.2.1 "time=00:00:05.00" 0 le_rfl,
   parseProgress_scenario.2.2.2 "frame=120 fps=24.0 time=00:00:05.00 speed=1.0x"
     10 (by decide)⟩

end

end CreativeStudio
